import Mathlib

/-!
Verification development for the punctuation/capitalization restoration
script `examples/nlp/machine_translation/punctuation_infer/punctuate_capitalize_nmt.py`.

Python strings are embedded as lists of characters (`PyStr`), Python
functions as total Lean functions; loops whose Python counterparts may
fail to terminate take an explicit fuel argument and return `none` when
the fuel runs out.  A raised Python exception is modelled by `PyExn`.
-/

/-- A Python `str`, embedded as its list of characters. -/
abbrev PyStr := List Char

/-- A raised Python exception relevant to the embedded functions. -/
inductive PyExn
  | indexError
  | assertionError
  | valueError
  deriving DecidableEq

/-- Python whitespace as used by `str.split()` with no argument:
space, tab, newline, carriage return, vertical tab, form feed. -/
def pyIsSpace (c : Char) : Bool :=
  c == ' ' || c == '\t' || c == '\n' || c == '\r' || c == '\x0b' || c == '\x0c'

/-- Worker for `pySplit`: `acc` holds the characters of the word currently
being read, in reverse order. -/
def pySplitAcc : PyStr → PyStr → List PyStr
  | [], acc => if acc = [] then [] else [acc.reverse]
  | c :: cs, acc =>
    if pyIsSpace c then
      if acc = [] then pySplitAcc cs [] else acc.reverse :: pySplitAcc cs []
    else pySplitAcc cs (c :: acc)

/-- Python `s.split()` (no argument): split on runs of whitespace,
discarding empty chunks. -/
def pySplit (s : PyStr) : List PyStr := pySplitAcc s []

/-- Python `" ".join(words)`. -/
def joinSpace : List PyStr → PyStr
  | [] => []
  | [w] => w
  | w :: ws => w ++ ' ' :: joinSpace ws

/-- Embedding of `split_into_segments`, inner `while` loop
(source lines 142 to 146):

    while segment_start + max_seq_length < len(words):
        segments.append(' '.join(words[segment_start : segment_start + max_seq_length]))
        start_word_i.append(segment_start)
        query_indices.append(q_i)
        segment_start += step

Emits the list of `(segment, query_index, start_word_i)` triples together
with the final value of `segment_start`.  The loop does not terminate in
Python when `step = 0` and the guard holds, so the embedding carries fuel;
`none` means the fuel ran out. -/
def segWhile (maxLen step : Nat) (words : List PyStr) (qi : Nat) :
    Nat → Nat → Option (List (PyStr × Nat × Nat) × Nat)
  | 0, start => if start + maxLen < words.length then none else some ([], start)
  | fuel + 1, start =>
    if start + maxLen < words.length then
      match segWhile maxLen step words qi fuel (start + step) with
      | none => none
      | some (rest, fin) =>
        some ((joinSpace ((words.drop start).take maxLen), qi, start) :: rest, fin)
    else some ([], start)

/-- Embedding of `split_into_segments`, outer `for` loop over the queries
(source lines 140 to 146).  Note that in the source `segment_start` is
initialised once, before the `for` loop (line 139), and is never reset per
query; the embedding threads it through accordingly. -/
def segFor (maxLen step fuel : Nat) : List PyStr → Nat → Nat → Option (List (PyStr × Nat × Nat))
  | [], _, _ => some []
  | t :: ts, qi, start =>
    match segWhile maxLen step (pySplit t) qi fuel start with
    | none => none
    | some (emitted, fin) =>
      match segFor maxLen step fuel ts (qi + 1) fin with
      | none => none
      | some rest => some (emitted ++ rest)

/-- Embedding of `split_into_segments(texts, max_seq_length, step)`
(source lines 137 to 147).  Returns the three parallel lists
`(segments, query_indices, start_word_i)`. -/
def split_into_segments (fuel : Nat) (texts : List PyStr) (maxLen step : Nat) :
    Option (List PyStr × List Nat × List Nat) :=
  match segFor maxLen step fuel texts 0 0 with
  | none => none
  | some l => some (l.map (fun e => e.1), l.map (fun e => e.2.1), l.map (fun e => e.2.2))

/-- Source line 239: `main` invokes the segmenter as
`split_into_segments(texts, args.max_seq_length, args.margin)` — the third
positional argument, bound to the `step` parameter of the function, is
`args.margin` rather than `args.step`. -/
def main_segmenter_call (fuel : Nat) (texts : List PyStr) (maxSeqLength step margin : Nat) :
    Option (List PyStr × List Nat × List Nat) :=
  split_into_segments fuel texts maxSeqLength margin

/-- Number of matches of `re.findall` for the character class built from
`caps`: the count of characters of `s` that belong to `caps`. -/
def countCap (s caps : PyStr) : Nat :=
  (s.filter (fun c => caps.contains c)).length

/-- Python string repetition `(c0 + " ") * n`. -/
def neutralPad (c0 : Char) : Nat → PyStr
  | 0 => []
  | n + 1 => c0 :: ' ' :: neutralPad c0 n

/-- Python indexing `s[i]` with negative-index wrap-around; `none` models an
`IndexError`. -/
def pyIndex (s : PyStr) (i : Int) : Option Char :=
  if 0 ≤ i then s[i.toNat]?
  else if (-i).toNat ≤ s.length then s[s.length - (-i).toNat]? else none

/-- Python slicing `s[:k]`, including the negative-bound case. -/
def pySliceTo (s : PyStr) (k : Int) : PyStr :=
  if 0 ≤ k then s.take k.toNat else s.take (s.length - (-k).toNat)

/-- Embedding of the backward scan of `adjust_predicted_labels_length`
(source lines 162 to 167):

    i = num_word_labels
    pos = len(labels) - 1
    while i > num_words:
        if labels[pos] in capitalization_labels:
            i -= 1
        pos -= 1

Returns the final value of `pos`.  `pos` may walk below `-len(labels)`, at
which point Python raises `IndexError`; fuel exhaustion yields `none`. -/
def truncLoop (caps labels : PyStr) (numWords : Nat) : Nat → Nat → Int → Option (Except PyExn Int)
  | 0, i, pos => if numWords < i then none else some (.ok pos)
  | fuel + 1, i, pos =>
    if numWords < i then
      match pyIndex labels pos with
      | none => some (.error .indexError)
      | some c =>
        truncLoop caps labels numWords fuel (if caps.contains c then i - 1 else i) (pos - 1)
    else some (.ok pos)

/-- Embedding of one iteration of `adjust_predicted_labels_length`
(source lines 155 to 169).  Note that the source computes `num_word_labels`
with `capitalization_pattern.findall(segment)` (line 157) — counting the
capitalization characters that occur in the SEGMENT text, not in the label
string — and, in the under-production branch, appends the padding only
under `if labels[-1] != ' '` (line 159). -/
def adjust_one (fuel : Nat) (segment labels caps : PyStr) : Option (Except PyExn PyStr) :=
  let numWords := (pySplit segment).length
  let numWordLabels := countCap segment caps
  if numWordLabels < numWords then
    match labels.getLast? with
    | none => some (.error .indexError)
    | some c =>
      if c ≠ ' ' then
        match caps.head? with
        | none => some (.error .indexError)
        | some c0 => some (.ok (labels ++ ' ' :: neutralPad c0 (numWords - numWordLabels)))
      else some (.ok labels)
  else if numWords < numWordLabels then
    match truncLoop caps labels numWords fuel numWordLabels ((labels.length : Int) - 1) with
    | none => none
    | some (.error e) => some (.error e)
    | some (.ok pos) => some (.ok (pySliceTo labels (pos + 1)))
  else some (.ok labels)

/-- Embedding of `adjust_predicted_labels_length(segments, autoregressive_labels,
capitalization_labels)` (source lines 150 to 170).  `zip` stops at the
shorter list; the first raised exception aborts the call. -/
def adjust_predicted_labels_length (fuel : Nat) :
    List PyStr → List PyStr → PyStr → Option (Except PyExn (List PyStr))
  | [], _, _ => some (.ok [])
  | _ :: _, [], _ => some (.ok [])
  | seg :: segs, lab :: labs, caps =>
    match adjust_one fuel seg lab caps with
    | none => none
    | some (.error e) => some (.error e)
    | some (.ok l) =>
      match adjust_predicted_labels_length fuel segs labs caps with
      | none => none
      | some (.error e) => some (.error e)
      | some (.ok ls) => some (.ok (l :: ls))

/-- Python substring prefix test: true when `pat` is an initial run of `s`. -/
def strStartsWith : PyStr → PyStr → Bool
  | [], _ => true
  | _ :: _, [] => false
  | a :: pa, b :: sb => a == b && strStartsWith pa sb

/-- Python membership `needle in hay` on strings: substring containment
(the empty string is contained in every string). -/
def strContains (needle : PyStr) : PyStr → Bool
  | [] => needle.isEmpty
  | c :: t => strStartsWith needle (c :: t) || strContains needle t

/-- Worker for `pySplitSep`: scans `s`, cutting at each occurrence of the
non-empty separator `sep`.  Fuel `s.length` always suffices because every
step consumes at least one character of `s`. -/
def pySplitSepGo (sep : PyStr) : Nat → PyStr → PyStr → List PyStr
  | _, [], acc => [acc.reverse]
  | 0, s, acc => [acc.reverse ++ s]
  | fuel + 1, c :: cs, acc =>
    if strStartsWith sep (c :: cs) then
      acc.reverse :: pySplitSepGo sep fuel ((c :: cs).drop sep.length) []
    else pySplitSepGo sep fuel cs (c :: acc)

/-- Python `s.split(sep)` with an explicit separator; an empty separator
raises `ValueError`. -/
def pySplitSep (s sep : PyStr) : Except PyExn (List PyStr) :=
  if sep = [] then .error .valueError
  else .ok (pySplitSepGo sep s.length s [])

/-- A `collections.Counter`, embedded as an association list in insertion
order. -/
abbrev Cnt := List (PyStr × Nat)

/-- `counter.update([k])`: increment the count of `k`, inserting it at the
end when absent. -/
def cntUpdate (c : Cnt) (k : PyStr) : Cnt :=
  if c.any (fun p => p.1 == k) then
    c.map (fun p => if p.1 == k then (p.1, p.2 + 1) else p)
  else c ++ [(k, 1)]

/-- The two per-query voting arrays of `apply_autoregressive_labels`
(source lines 188 and 189): one punctuation counter per word gap and one
capitalization counter per word. -/
structure VoteState where
  punct : List Cnt
  cap : List Cnt
  deriving DecidableEq

/-- `voting[i].update([k])`, with `none` for an out-of-range index
(`IndexError`). -/
def updateVote (l : List Cnt) (i : Nat) (k : PyStr) : Option (List Cnt) :=
  match l[i]? with
  | none => none
  | some c => some (l.set i (cntUpdate c k))

/-- Embedding of the inner `for lbl_i, lbl in enumerate(labels)` loop of
`apply_autoregressive_labels` (source lines 196 to 210), including the
`continue`, the `break` (which returns the current state) and the two
`assert` statements.  `j`, `margin`, `num_words_in_segment` and
`the_last_segment` are fixed by the enclosing `while` iteration.  The
Python comparison `num_processed <= margin != 0` is chained: it means
`num_processed <= margin and margin != 0`. -/
def forLabels (caps : PyStr) (j : Nat) (margin : Int) (nwis : Nat) (theLast : Bool) :
    List (Nat × PyStr) → Nat → VoteState → Except PyExn VoteState
  | [], _, st => .ok st
  | (li, lbl) :: rest, np, st =>
    let np2 := if strContains lbl caps then np + 1 else np
    if 0 < j ∧ (np2 : Int) ≤ margin ∧ margin ≠ 0 then
      forLabels caps j margin nwis theLast rest np2 st
    else if ¬theLast = true ∧ (nwis : Int) - margin < (np2 : Int) then
      .ok st
    else if li % 2 = 1 then
      if strContains lbl caps then
        if lbl ≠ [] then
          match updateVote st.cap (li / 2) lbl with
          | none => .error .indexError
          | some cs => forLabels caps j margin nwis theLast rest np2 ⟨st.punct, cs⟩
        else forLabels caps j margin nwis theLast rest np2 st
      else .error .assertionError
    else
      if strContains lbl caps then .error .assertionError
      else if lbl ≠ [] then
        match updateVote st.punct (li / 2) lbl with
        | none => .error .indexError
        | some ps => forLabels caps j margin nwis theLast rest np2 ⟨ps, st.cap⟩
      else forLabels caps j margin nwis theLast rest np2 st

/-- Embedding of the `while query_indices[j] == q_i` loop of
`apply_autoregressive_labels` (source lines 191 to 210).  `j` is set to 0
before the loop (line 190) and is never incremented by the body, so the
recursive call passes `j` unchanged; the loop therefore re-reads the same
segment forever when the guard holds, and the embedding spends one unit of
fuel per iteration (`none` = fuel ran out).  The guard itself indexes
`query_indices[j]`, raising `IndexError` when `j` is out of range.  Line
193 computes `the_last_segment` from `j * step`, and line 194 splits the
string `capitalization_labels` with the label string as separator
(`capitalization_labels.split(segment_autoregressive_labels[j])`). -/
def whileSegments (caps : PyStr) (segLabels : List PyStr) (queryIndices : List Nat)
    (qi : Nat) (step margin : Int) (numWords : Nat) :
    Nat → Nat → VoteState → Option (Except PyExn VoteState)
  | 0, j, st =>
    match queryIndices[j]? with
    | none => some (.error .indexError)
    | some v => if v = qi then none else some (.ok st)
  | fuel + 1, j, st =>
    match queryIndices[j]? with
    | none => some (.error .indexError)
    | some v =>
      if v = qi then
        match segLabels[j]? with
        | none => some (.error .indexError)
        | some sl =>
          let nwis := countCap sl caps
          let theLast : Bool := decide ((numWords : Int) ≤ (j : Int) * step + (nwis : Int))
          match pySplitSep caps sl with
          | .error e => some (.error e)
          | .ok fields =>
            match forLabels caps j margin nwis theLast fields.enum 0 st with
            | .error e => some (.error e)
            | .ok st2 => whileSegments caps segLabels queryIndices qi step margin numWords fuel j st2
      else some (.ok st)

/-- Embedding of the outer `for q_i, query in enumerate(queries)` loop of
`apply_autoregressive_labels` (source lines 185 to 210): per query, split
into words, create fresh voting counters, then run the `while` loop. -/
def forQueries (caps : PyStr) (segLabels : List PyStr) (queryIndices : List Nat)
    (step margin : Int) (fuel : Nat) : List PyStr → Nat → Option (Except PyExn Unit)
  | [], _ => some (.ok ())
  | q :: qs, qi =>
    let numWords := (pySplit q).length
    let st : VoteState := ⟨List.replicate (numWords + 1) [], List.replicate numWords []⟩
    match whileSegments caps segLabels queryIndices qi step margin numWords fuel 0 st with
    | none => none
    | some (.error e) => some (.error e)
    | some (.ok _) => forQueries caps segLabels queryIndices step margin fuel qs (qi + 1)

/-- Embedding of `apply_autoregressive_labels(queries,
segment_autoregressive_labels, query_indices, start_word_i, step, margin,
capitalization_labels)` (source lines 173 to 210).  The source initialises
`result = []` (line 183) but never appends to it and has no `return`
statement, so every terminating call returns the Python value `None`,
modelled as the inner `none`; the parameter `start_word_i` is never used by
the body.  The outer `none` means the fuel ran out (the source loops
forever there). -/
def apply_autoregressive_labels (fuel : Nat) (queries segment_autoregressive_labels : List PyStr)
    (query_indices start_word_i : List Nat) (step margin : Int)
    (capitalization_labels : PyStr) : Option (Except PyExn (Option (List PyStr))) :=
  match forQueries capitalization_labels segment_autoregressive_labels query_indices
      step margin fuel queries 0 with
  | none => none
  | some (.error e) => some (.error e)
  | some (.ok _) => some (.ok none)

/-- The keyword names accepted by `argparse` when constructing a plain
optional argument with the default store action: any other keyword passed
to `add_argument` raises `TypeError` while the parser is being built. -/
def argparseStoreKeywords : List String :=
  ["action", "nargs", "const", "default", "type", "choices", "required",
   "help", "metavar", "dest", "version"]

/-- Source line 105: the `add_argument` call for `--capitalization_labels`
passes the keyword `defalt` (a misspelling of `default`) with value
`"OuU"`. -/
def capitalizationLabelsKeyword : String := "defalt"

/-- The possible outcomes of `get_args` (source lines 14 to 125):
`typeErrorBadKeyword` is the `TypeError` argparse raises during parser
construction for an unknown `add_argument` keyword; the two `parser.error`
outcomes are the validation failures of lines 112 to 121, each reporting
the offending values; `accepted` means the configuration passed both
checks. -/
inductive GetArgsOutcome
  | typeErrorBadKeyword (kw : String)
  | errorBadMaxSeqLength (maxSeqLength : Int)
  | errorBadMarginStep (maxSeqLength margin step : Int)
  | accepted (maxSeqLength step margin : Int)
  deriving DecidableEq

/-- Embedding of `get_args` restricted to the configuration triple
`(max_seq_length, step, margin)`.  The parser is fully constructed
(source lines 15 to 108) before `parse_args` runs and before the two
validation checks (lines 112 to 121); construction raises `TypeError` as
soon as an `add_argument` call passes a keyword that argparse does not
accept, which the call for `--capitalization_labels` does (`defalt`,
line 105).  The two checks themselves are transcribed from lines 112
and 116. -/
def get_args (maxSeqLength step margin : Int) : GetArgsOutcome :=
  if capitalizationLabelsKeyword ∉ argparseStoreKeywords then
    .typeErrorBadKeyword capitalizationLabelsKeyword
  else if maxSeqLength ≤ 0 then .errorBadMaxSeqLength maxSeqLength
  else if maxSeqLength - 2 * margin < step then
    .errorBadMarginStep maxSeqLength margin step
  else .accepted maxSeqLength step margin

/-- A word produced by `pySplitAcc` is non-empty and free of whitespace,
provided the accumulator holds no whitespace character. -/
theorem pySplitAcc_good : ∀ (s acc : PyStr), (∀ c ∈ acc, pyIsSpace c = false) →
    ∀ w ∈ pySplitAcc s acc, w ≠ [] ∧ ∀ c ∈ w, pyIsSpace c = false
  | [], acc, hacc => by
    simp only [pySplitAcc]
    split
    · intro w hw; simp at hw
    · intro w hw
      simp only [List.mem_singleton] at hw
      subst hw
      refine ⟨by simpa using ‹¬acc = []›, ?_⟩
      intro c hc
      exact hacc c (List.mem_reverse.mp hc)
  | c :: cs, acc, hacc => by
    simp only [pySplitAcc]
    split
    · split
      · exact pySplitAcc_good cs [] (by simp)
      · intro w hw
        rcases List.mem_cons.mp hw with h | h
        · subst h
          refine ⟨by simpa using ‹¬acc = []›, ?_⟩
          intro d hd
          exact hacc d (List.mem_reverse.mp hd)
        · exact pySplitAcc_good cs [] (by simp) w h
    · rename_i hcs
      refine pySplitAcc_good cs (c :: acc) ?_
      intro d hd
      rcases List.mem_cons.mp hd with h | h
      · subst h
        simpa using hcs
      · exact hacc d h

/-- Every word of `pySplit s` is non-empty and free of whitespace. -/
theorem pySplit_good (s : PyStr) : ∀ w ∈ pySplit s, w ≠ [] ∧ ∀ c ∈ w, pyIsSpace c = false :=
  pySplitAcc_good s [] (by simp)

/-- Scanning a whitespace-free word moves it wholesale into the
accumulator. -/
theorem pySplitAcc_append_word : ∀ (w s acc : PyStr), (∀ c ∈ w, pyIsSpace c = false) →
    pySplitAcc (w ++ s) acc = pySplitAcc s (w.reverse ++ acc)
  | [], s, acc, _ => by simp
  | c :: w, s, acc, hw => by
    have hc : pyIsSpace c = false := hw c (by simp)
    rw [List.cons_append, pySplitAcc, if_neg (by simp [hc]),
      pySplitAcc_append_word w s (c :: acc) (fun d hd => hw d (List.mem_cons_of_mem c hd))]
    simp

/-- Round trip: joining non-empty whitespace-free words with single spaces
and splitting again recovers the words. -/
theorem pySplit_joinSpace : ∀ ws : List PyStr,
    (∀ w ∈ ws, w ≠ [] ∧ ∀ c ∈ w, pyIsSpace c = false) → pySplit (joinSpace ws) = ws
  | [], _ => rfl
  | [w], h => by
    obtain ⟨hne, hns⟩ := h w (by simp)
    show pySplitAcc (joinSpace [w]) [] = [w]
    have : joinSpace [w] = w ++ [] := by simp [joinSpace]
    rw [this, pySplitAcc_append_word w [] [] hns]
    simp only [List.append_nil, pySplitAcc]
    rw [if_neg (by simpa using hne)]
    simp
  | w :: v :: vs, h => by
    obtain ⟨hne, hns⟩ := h w (by simp)
    show pySplitAcc (joinSpace (w :: v :: vs)) [] = w :: v :: vs
    have hj : joinSpace (w :: v :: vs) = w ++ ' ' :: joinSpace (v :: vs) := rfl
    rw [hj, pySplitAcc_append_word w _ [] hns]
    simp only [List.append_nil, pySplitAcc]
    rw [if_pos (by decide)]
    rw [if_neg (by simpa using hne)]
    rw [List.reverse_reverse]
    have := pySplit_joinSpace (v :: vs) (fun u hu => h u (List.mem_cons_of_mem w hu))
    rw [show pySplitAcc (joinSpace (v :: vs)) [] = pySplit (joinSpace (v :: vs)) from rfl, this]

/-- Every triple emitted by the inner segmentation loop carries a segment
string of exactly `maxLen` words, provided the words of the query are
non-empty and whitespace-free. -/
theorem segWhile_full : ∀ (maxLen step : Nat) (words : List PyStr) (qi fuel start : Nat)
    (out : List (PyStr × Nat × Nat) × Nat),
    (∀ w ∈ words, w ≠ [] ∧ ∀ c ∈ w, pyIsSpace c = false) →
    segWhile maxLen step words qi fuel start = some out →
    ∀ e ∈ out.1, (pySplit e.1).length = maxLen
  | maxLen, step, words, qi, 0, start, out, _, hout => by
    simp only [segWhile] at hout
    split at hout
    · exact absurd hout (by simp)
    · rcases Option.some_inj.mp hout with rfl
      intro e he; simp at he
  | maxLen, step, words, qi, fuel + 1, start, out, hw, hout => by
    simp only [segWhile] at hout
    split at hout
    · rename_i hlt
      cases hrec : segWhile maxLen step words qi fuel (start + step) with
      | none => rw [hrec] at hout; exact absurd hout (by simp)
      | some p =>
        rw [hrec] at hout
        rcases Option.some_inj.mp hout with rfl
        intro e he
        rcases List.mem_cons.mp he with h | h
        · subst h
          show (pySplit (joinSpace ((words.drop start).take maxLen))).length = maxLen
          have hsub : ∀ w ∈ (words.drop start).take maxLen,
              w ≠ [] ∧ ∀ c ∈ w, pyIsSpace c = false := by
            intro w hmem
            exact hw w (List.drop_subset start words (List.take_subset maxLen _ hmem))
          rw [pySplit_joinSpace _ hsub]
          have hlen : (words.drop start).length = words.length - start := List.length_drop _ _
          rw [List.length_take, hlen]
          omega
        · exact segWhile_full maxLen step words qi fuel (start + step) p hw hrec e h
    · rcases Option.some_inj.mp hout with rfl
      intro e he; simp at he

/-- Every triple emitted by the outer segmentation loop carries a segment
string of exactly `maxLen` words. -/
theorem segFor_full : ∀ (maxLen step fuel : Nat) (texts : List PyStr) (qi start : Nat)
    (l : List (PyStr × Nat × Nat)),
    segFor maxLen step fuel texts qi start = some l →
    ∀ e ∈ l, (pySplit e.1).length = maxLen
  | maxLen, step, fuel, [], qi, start, l, hout => by
    simp only [segFor] at hout
    rcases Option.some_inj.mp hout with rfl
    intro e he; simp at he
  | maxLen, step, fuel, t :: ts, qi, start, l, hout => by
    simp only [segFor] at hout
    split at hout
    · exact absurd hout (by simp)
    · rename_i emitted fin hw
      split at hout
      · exact absurd hout (by simp)
      · rename_i rest hf
        rcases Option.some_inj.mp hout with rfl
        intro e he
        rcases List.mem_append.mp he with h | h
        · exact segWhile_full maxLen step (pySplit t) qi fuel start (emitted, fin)
            (pySplit_good t) hw e h
        · exact segFor_full maxLen step fuel ts (qi + 1) fin rest hf e h

/-- C1: the claim states that `apply_autoregressive_labels` returns a list
of final texts, one per input query, in the original order.  In the source
the local `result` list is never appended to and the function body has no
`return` statement, so every terminating call returns the Python value
`None`, not a list.  At the concrete input of zero queries (with empty,
trivially correct provenance arrays) the call terminates and returns
`None`, although the claim requires the empty list. -/
theorem C1_apply_returns_python_none :
    apply_autoregressive_labels 5 [] [] [] [] 1 0 "OuU".toList = some (.ok none) := rfl

/-- C2: the claim states that a query with fewer than `max_seq_length`
words yields exactly one segment holding the whole query.  The loop guard
`segment_start + max_seq_length < len(words)` (line 142) is false at
`segment_start = 0` for such a query, so the code emits zero segments:
here a two-word query with `max_seq_length = 3` produces empty output. -/
theorem C2_short_query_yields_no_segment :
    split_into_segments 10 ["a b".toList] 3 1 = some ([], [], []) ∧
    (pySplit "a b".toList).length = 2 := by decide

/-- C3: the claim states that for a valid configuration the emitted word
ranges cover every word index.  With the valid configuration
`max_seq_length = 3, step = 1, margin = 0` (3 - 2*0 >= 1) and a five-word
query, the code emits only the segments starting at 0 and 1, whose ranges
[0, 3) and [1, 4) leave word index 4 uncovered. -/
theorem C3_coverage_gap_at_tail :
    split_into_segments 10 ["a b c d e".toList] 3 1 =
      some (["a b c".toList, "b c d".toList], [0, 0], [0, 1]) ∧
    (pySplit "a b c d e".toList).length = 5 ∧
    (∀ st ∈ [0, 1], ¬(st ≤ 4 ∧ 4 < st + 3)) := by decide

/-- C4: the claim states that start offsets restart at 0 for every query
and that the pipeline passes the configured step as the stride.  First
conjunct of the counter-evidence: `segment_start` is initialised once
before the query loop (line 139) and never reset, so after the first query
consumes offsets 0 and 1 the identical second query gets no segment at all
instead of restarting at offset 0.  Second conjunct: `main` (line 239)
passes `args.margin`, not `args.step`, as the stride, which changes the
result whenever the two values disagree. -/
theorem C4_offsets_not_restarted :
    split_into_segments 10 ["a b c d".toList, "a b c d".toList] 2 1 =
      some (["a b".toList, "b c".toList], [0, 0], [0, 1]) ∧
    main_segmenter_call 10 ["a b c d e f".toList] 3 1 2 ≠
      split_into_segments 10 ["a b c d e f".toList] 3 1 := by decide

/-- C5: the claim states that the aligner returns a label string with
exactly W capitalization tags for a W-word segment.  Line 157 counts the
capitalization characters of the SEGMENT text instead of the label string
(`capitalization_pattern.findall(segment)`), so for the two-word segment
containing no capitalization characters and the one-tag label string the
code appends two neutral tags and returns a string with three tags, not
two. -/
theorem C5_aligner_wrong_tag_count :
    adjust_predicted_labels_length 10 ["a b".toList] ["U".toList] "OuU".toList =
      some (.ok ["U O O ".toList]) ∧
    (pySplit "a b".toList).length = 2 ∧
    countCap "U O O ".toList "OuU".toList = 3 := ⟨rfl, by decide, by decide⟩

/-- C6: the claim states that a label string whose capitalization-tag
count already equals the word count of the segment is returned unchanged.
Here the label string has 2 tags for the 2-word segment, yet the code
(counting tags in the segment text, line 157, and finding 0 there) takes
the under-production branch and appends two neutral tags, changing the
string. -/
theorem C6_aligner_not_idempotent :
    countCap "O U".toList "OuU".toList = (pySplit "a b".toList).length ∧
    adjust_predicted_labels_length 10 ["a b".toList] ["O U".toList] "OuU".toList =
      some (.ok ["O U O O ".toList]) ∧
    "O U O O ".toList ≠ "O U".toList := ⟨by decide, rfl, by decide⟩

/-- C7: the claim states that for a query covered by one segment whose
aligned labels give tag U to word w, the capitalization counter at index
start_offset + local index ends with exactly one vote for U.  For the
one-word query with the single aligned label string consisting of tag U,
line 194 splits the string `capitalization_labels` with the label string
as separator (receiver and argument swapped), producing the single field
`OuU`; that field is a substring of the label alphabet, so the assertion
at line 208 fails and the accumulation raises `AssertionError` instead of
recording any vote. -/
theorem C7_single_segment_assertion_error :
    apply_autoregressive_labels 5 ["a".toList] ["U ".toList] [0] [0] 1 0 "OuU".toList =
      some (.error .assertionError) := rfl

/-- C8: the claim describes the margin skip rule for non-first segments
and the stop rule for non-last segments.  In the source `j` is set to 0
before the `while` loop (line 190) and never incremented, so the guard
`j > 0` of the skip rule is never true and no segment after the first is
ever reached: on a query with two segments whose first segment is not the
last (so the stop rule fires), the loop breaks, re-tests the unchanged
guard `query_indices[0] == 0` and repeats forever.  Whatever fuel the
embedding is given runs out. -/
theorem C8_accumulation_loop_never_advances : ∀ fuel : Nat,
    apply_autoregressive_labels fuel ["a b c".toList] ["O a O b ".toList, "x".toList]
      [0, 0] [0, 1] 1 2 "OuU".toList = none
  | 0 => rfl
  | fuel + 1 => by
    rw [show apply_autoregressive_labels (fuel + 1) ["a b c".toList]
          ["O a O b ".toList, "x".toList] [0, 0] [0, 1] 1 2 "OuU".toList =
        apply_autoregressive_labels fuel ["a b c".toList]
          ["O a O b ".toList, "x".toList] [0, 0] [0, 1] 1 2 "OuU".toList from rfl]
    exact C8_accumulation_loop_never_advances fuel

/-- C9: the claim states that invalid configurations are rejected with the
offending values reported and that valid ones pass the checks.  Because
the `add_argument` call for `--capitalization_labels` passes the unknown
keyword `defalt` (line 105), argparse raises `TypeError` during parser
construction on every invocation: the default configuration
`(max_seq_length, step, margin) = (64, 8, 16)`, which satisfies both check
conditions, is rejected anyway, and the invalid configuration with
`max_seq_length = 0` dies with the same keyword `TypeError` instead of the
error that reports the offending value. -/
theorem C9_get_args_always_type_error :
    get_args 64 8 16 = .typeErrorBadKeyword "defalt" ∧
    get_args 0 8 16 = .typeErrorBadKeyword "defalt" ∧
    ¬((64 : Int) ≤ 0) ∧ (8 : Int) ≤ 64 - 2 * 16 := by decide

/-- C10: every segment string emitted by `split_into_segments` holds
exactly `max_seq_length` whitespace-delimited words, for every input text
list and positive `max_seq_length` and `step` — the loop guard
`segment_start + max_seq_length < len(words)` admits only full windows and
no shorter final window is ever emitted. -/
theorem C10_every_segment_has_full_length (fuel : Nat) (texts : List PyStr)
    (maxLen step : Nat) (out : List PyStr × List Nat × List Nat)
    (hmax : 0 < maxLen) (hstep : 0 < step)
    (hout : split_into_segments fuel texts maxLen step = some out) :
    ∀ s ∈ out.1, (pySplit s).length = maxLen := by
  rw [split_into_segments] at hout
  split at hout
  · exact absurd hout (by simp)
  · rename_i l hf
    rcases Option.some_inj.mp hout with rfl
    intro s hs
    have hs2 : s ∈ l.map (fun e => e.1) := hs
    rw [List.mem_map] at hs2
    obtain ⟨e, he, rfl⟩ := hs2
    exact segFor_full maxLen step fuel texts 0 0 l hf e he

/-- Witness for C10 at a concrete input: a four-word query split with
`max_seq_length = 2` and `step = 1` emits the segment `a b`, which indeed
has exactly two words. -/
theorem C10_witness_concrete : (pySplit "a b".toList).length = 2 :=
  C10_every_segment_has_full_length 10 ["a b c d".toList] 2 1
    (["a b".toList, "b c".toList], [0, 0], [0, 1]) (by decide) (by decide) (by decide)
    ("a b".toList) (List.mem_cons_self _ _)
